import Mathlib

/-!
Shallow embedding of the vivian-interaction-creater generation pipeline:
src/specgen/schemas.py, src/specgen/llm.py, src/specgen/generator.py and
src/unityconnector.py, together with executable models of the two external
library functions the code calls on its data path (jsonschema.validate and
json.loads).
-/

/-- JSON values: the structured values the pipeline passes around
(Python dict / list / str / int / bool / None).  Numbers are modelled as
integers; no schema or claim in this development constrains numeric values. -/
inductive Json where
  | null : Json
  | bool (b : Bool) : Json
  | num (n : Int) : Json
  | str (s : String) : Json
  | arr (xs : List Json) : Json
  | obj (fields : List (String × Json)) : Json

/-- The fragment of JSON Schema exercised by src/specgen/schemas.py:
string schemas, array schemas (with or without an item schema) and object
schemas carrying properties, a required-field list and an
additionalProperties flag. -/
inductive JSchema where
  | str : JSchema
  | arrAny : JSchema
  | arrOf (item : JSchema) : JSchema
  | obj (props : List (String × JSchema)) (required : List String) (addProps : Bool) : JSchema

mutual

/-- Modelled from the semantics of jsonschema.validate on the schema
fragment above: every required field must be present, every present field
that names a property must match that property schema, and fields outside
the properties are allowed iff additionalProperties is true. -/
def validateB (j : Json) (s : JSchema) : Bool :=
  match s with
  | .str => match j with | .str _ => true | _ => false
  | .arrAny => match j with | .arr _ => true | _ => false
  | .arrOf it => match j with | .arr xs => allValid xs it | _ => false
  | .obj props req add =>
    match j with
    | .obj fields =>
      req.all (fun r => fields.any (fun kv => kv.1 == r)) && fieldsValid props add fields
    | _ => false

/-- Every element of the list validates against the item schema. -/
def allValid (xs : List Json) (it : JSchema) : Bool :=
  match xs with
  | [] => true
  | x :: rest => validateB x it && allValid rest it

/-- Every field of the instance object is acceptable: it matches its
property schema if its name is declared, and otherwise it is tolerated
exactly when additionalProperties is set. -/
def fieldsValid (props : List (String × JSchema)) (add : Bool) (fields : List (String × Json)) : Bool :=
  match fields with
  | [] => true
  | kv :: rest =>
    (match props.find? (fun p => p.1 == kv.1) with
     | some p => validateB kv.2 p.2
     | none => add) && fieldsValid props add rest

end

/-- Message text of the ValidationError raised by jsonschema.validate; the
wording is produced by the external library and is modelled abstractly. -/
def errMsg (_ : Json) (_ : JSchema) : String :=
  "is not valid under the given schema"

/-- jsonschema.validate: ok on success, otherwise the ValidationError
message (in Python the error is raised). -/
def validate (j : Json) (s : JSchema) : Except String Unit :=
  if validateB j s then Except.ok () else Except.error (errMsg j s)

/-- src/specgen/schemas.py INTERACTION_ELEMENTS_SCHEMA (the "$schema" key
is a draft annotation with no validation effect and is not part of the
structural model). -/
def INTERACTION_ELEMENTS_SCHEMA : JSchema :=
  .obj [("Elements", .arrOf (.obj [("Type", .str), ("Name", .str)] ["Type", "Name"] true))]
    ["Elements"] false

/-- src/specgen/schemas.py VISUALIZATION_ELEMENTS_SCHEMA. -/
def VISUALIZATION_ELEMENTS_SCHEMA : JSchema :=
  .obj [("Elements", .arrOf (.obj [("Type", .str), ("Name", .str)] ["Type", "Name"] true))]
    ["Elements"] false

/-- src/specgen/schemas.py STATES_SCHEMA. -/
def STATES_SCHEMA : JSchema :=
  .obj [("States", .arrOf (.obj [("Name", .str), ("Conditions", .arrAny)] ["Name", "Conditions"] true))]
    ["States"] false

/-- src/specgen/schemas.py TRANSITIONS_SCHEMA. -/
def TRANSITIONS_SCHEMA : JSchema :=
  .obj [("Transitions", .arrOf (.obj [("SourceState", .str), ("DestinationState", .str)]
    ["SourceState", "DestinationState"] true))]
    ["Transitions"] false

/-- src/specgen/generator.py FILE_ORDER: the fixed artifact order. -/
def FILE_ORDER : List (String × JSchema) :=
  [("InteractionElements.json", INTERACTION_ELEMENTS_SCHEMA),
   ("VisualizationElements.json", VISUALIZATION_ELEMENTS_SCHEMA),
   ("States.json", STATES_SCHEMA),
   ("Transitions.json", TRANSITIONS_SCHEMA)]

/-- src/specgen/generator.py SYSTEM_PROMPT. -/
def SYSTEM_PROMPT : String :=
  "Du bist ein strenger Konfigurator für Vivian-Prototypen.\nHalte dich 1:1 an das vorgegebene JSON-Schema (strict) und an die bereitgestellten Dokus.\nKeine Erklärungen, nur das reine JSON nach Schema.\n"

/-- src/specgen/generator.py _build_user_prompt, the f-string transcribed. -/
def build_user_prompt (spec_text docs_text target_file : String) : String :=
  "\nZiel-Datei: " ++ target_file ++
  "\n\nAufgabe: Erzeuge ausschließlich die JSON-Inhalte für die Datei oben.\nProjekt-Spezifikation:\n---\n" ++
  spec_text ++
  "\n---\n\nAuszüge aus den offiziellen Dokus und Beispielen (als Referenz, nur relevante Teile verwenden):\n---\n" ++
  docs_text ++ "\n---\n"

/-- The repair prompt built in src/specgen/generator.py line 50:
original user prompt, literal validator error text, correction instruction. -/
def repair_user (user e : String) : String :=
  user ++ "\n\nFEHLER: " ++ e ++ "\nBitte korrigiere das JSON und liefere nur korrektes JSON."

/-- Python dict insertion (unityconnector dict comprehension): an existing
key is overwritten in place, a new key is appended. -/
def dictInsert (d : List (String × String)) (k v : String) : List (String × String) :=
  if d.any (fun p => p.1 == k) then d.map (fun p => if p.1 == k then (k, v) else p)
  else d ++ [(k, v)]

/-- Build a Python dict (as an ordered association list) from a pair list. -/
def dictOfPairs (ps : List (String × String)) : List (String × String) :=
  ps.foldl (fun d p => dictInsert d p.1 p.2) []

/-- Consecutive pairing of a token list, as the dict comprehension
in src/unityconnector.py indexes pairs[i], pairs[i+1] for even i;
a trailing unpaired token yields no pair. -/
def pairUp : List String → List (String × String)
  | a :: b :: rest => (a, b) :: pairUp rest
  | _ => []

/-- src/unityconnector.py _parse_argv. -/
def parse_argv (argv : List String) : String × String × List (String × String) :=
  match argv with
  | [] => ("GeneratedGroup", "", [])
  | a :: rest =>
    let gdp : String × String × List String :=
      if (a :: rest).length ≥ 3 ∧ ((a :: rest).length - 2) % 2 = 0 then
        (a, rest.headD (""), rest.drop 1)
      else
        ("GeneratedGroup", a, rest)
    let pairs := if gdp.2.2.length % 2 ≠ 0 then gdp.2.2.dropLast else gdp.2.2
    (gdp.1, gdp.2.1, dictOfPairs (pairUp pairs))

/-- Opening-brace character, kept as a named constant. -/
def lbrace : Char := Char.ofNat 123

/-- Closing-brace character, kept as a named constant. -/
def rbrace : Char := Char.ofNat 125

/-- Backtick character, kept as a named constant. -/
def tick : Char := Char.ofNat 96

/-- Whitespace in the sense of Python str.strip and the JSON grammar. -/
def isWs (c : Char) : Bool :=
  c = ' ' || c = '\n' || c = '\t' || c = '\r'

/-- Drop leading characters satisfying p from the end of the list. -/
def dropTrailWhile (p : Char → Bool) (l : List Char) : List Char :=
  (l.reverse.dropWhile p).reverse

/-- Python str.strip(): remove whitespace from both ends. -/
def trimChars (l : List Char) : List Char :=
  (dropTrailWhile isWs l).dropWhile isWs

/-- Python str.strip of a single character class from both ends. -/
def stripTicks (l : List Char) : List Char :=
  dropTrailWhile (fun c => c == tick) (l.dropWhile (fun c => c == tick))

/-- Python t.split with separator newline and maxsplit one, keeping index 1:
the suffix after the first newline, if the list has one. -/
def afterFirstNewline : List Char → Option (List Char)
  | [] => none
  | c :: rest => if c = '\n' then some rest else afterFirstNewline rest

/-- src/specgen/llm.py _strip_code_fences, on character lists. -/
def strip_code_fences_list (l : List Char) : List Char :=
  let t := trimChars l
  if t.take 3 = [tick, tick, tick] then
    let t2 := stripTicks t
    match afterFirstNewline t2 with
    | some rest => rest
    | none => t2
  else t

/-- src/specgen/llm.py _strip_code_fences. -/
def strip_code_fences (s : String) : String :=
  String.mk (strip_code_fences_list s.data)

/-- Decode one JSON string escape character (the model rejects numeric
escapes, which no claim exercises). -/
def escChar (c : Char) : Option Char :=
  if c = '"' then some '"'
  else if c = '\\' then some '\\'
  else if c = '/' then some '/'
  else if c = 'n' then some '\n'
  else if c = 't' then some '\t'
  else if c = 'r' then some '\r'
  else if c = 'b' then some (Char.ofNat 8)
  else if c = 'f' then some (Char.ofNat 12)
  else none

/-- Parse the body of a JSON string literal after the opening quote,
returning the decoded characters and the input after the closing quote. -/
def parseStringBody : List Char → Option (List Char × List Char)
  | [] => none
  | '\\' :: c :: rest =>
    match escChar c, parseStringBody rest with
    | some e, some (s, r) => some (e :: s, r)
    | _, _ => none
  | '"' :: rest => some ([], rest)
  | c :: rest =>
    match parseStringBody rest with
    | some (s, r) => some (c :: s, r)
    | none => none

/-- Numeric value of a digit list. -/
def digitsToNat (l : List Char) : Nat :=
  l.foldl (fun a c => a * 10 + (c.toNat - 48)) 0

/-- Parse a JSON integer literal (the model rejects fractions and
exponents, which no schema or claim exercises). -/
def parseNum (cs : List Char) : Option (Json × List Char) :=
  let core : List Char → Bool → Option (Json × List Char) := fun l neg =>
    let ds := l.takeWhile Char.isDigit
    let r := l.dropWhile Char.isDigit
    if ds.isEmpty then none
    else
      match r with
      | c :: _ => if c = '.' || c = 'e' || c = 'E' then none
                  else some (.num (if neg then -(digitsToNat ds : Int) else (digitsToNat ds : Int)), r)
      | [] => some (.num (if neg then -(digitsToNat ds : Int) else (digitsToNat ds : Int)), r)
  match cs with
  | '-' :: rest => core rest true
  | _ => core cs false

/-- Skip JSON insignificant whitespace. -/
def skipWs (cs : List Char) : List Char := cs.dropWhile isWs

mutual

/-- Recursive-descent JSON value parser modelling json.loads; fuel bounds
the recursion and is chosen generously by jsonParse. -/
def parseVal : Nat → List Char → Option (Json × List Char)
  | 0, _ => none
  | Nat.succ fuel, cs =>
    match skipWs cs with
    | [] => none
    | 'n' :: 'u' :: 'l' :: 'l' :: rest => some (.null, rest)
    | 't' :: 'r' :: 'u' :: 'e' :: rest => some (.bool true, rest)
    | 'f' :: 'a' :: 'l' :: 's' :: 'e' :: rest => some (.bool false, rest)
    | '"' :: rest =>
      (match parseStringBody rest with
       | some (s, r) => some (.str (String.mk s), r)
       | none => none)
    | '[' :: rest =>
      (match skipWs rest with
       | ']' :: r2 => some (.arr [], r2)
       | _ =>
         match parseVal fuel rest with
         | some (x, r2) =>
           (match parseArrTail fuel r2 with
            | some (xs, r3) => some (.arr (x :: xs), r3)
            | none => none)
         | none => none)
    | c :: rest =>
      if c = lbrace then parseObjBody fuel rest
      else parseNum (c :: rest)

/-- Elements of an object literal after the opening brace. -/
def parseObjBody : Nat → List Char → Option (Json × List Char)
  | 0, _ => none
  | Nat.succ fuel, cs =>
    match skipWs cs with
    | [] => none
    | c :: r =>
      if c = rbrace then some (.obj [], r)
      else
        match parseMember fuel cs with
        | some (kv, r2) =>
          (match parseObjTail fuel r2 with
           | some (kvs, r3) => some (.obj (kv :: kvs), r3)
           | none => none)
        | none => none

/-- One key-value member of an object literal. -/
def parseMember : Nat → List Char → Option ((String × Json) × List Char)
  | 0, _ => none
  | Nat.succ fuel, cs =>
    match skipWs cs with
    | '"' :: rest =>
      (match parseStringBody rest with
       | some (k, r) =>
         (match skipWs r with
          | ':' :: r2 =>
            (match parseVal fuel r2 with
             | some (v, r3) => some ((String.mk k, v), r3)
             | none => none)
          | _ => none)
       | none => none)
    | _ => none

/-- Remaining members of an object literal: comma-member repetitions up to
the closing brace. -/
def parseObjTail : Nat → List Char → Option (List (String × Json) × List Char)
  | 0, _ => none
  | Nat.succ fuel, cs =>
    match skipWs cs with
    | [] => none
    | c :: r =>
      if c = rbrace then some ([], r)
      else if c = ',' then
        match parseMember fuel r with
        | some (kv, r2) =>
          (match parseObjTail fuel r2 with
           | some (kvs, r3) => some (kv :: kvs, r3)
           | none => none)
        | none => none
      else none

/-- Remaining elements of an array literal: comma-value repetitions up to
the closing bracket. -/
def parseArrTail : Nat → List Char → Option (List Json × List Char)
  | 0, _ => none
  | Nat.succ fuel, cs =>
    match skipWs cs with
    | ']' :: r => some ([], r)
    | ',' :: r =>
      (match parseVal fuel r with
       | some (x, r2) =>
         (match parseArrTail fuel r2 with
          | some (xs, r3) => some (x :: xs, r3)
          | none => none)
       | none => none)
    | _ => none

end

/-- json.loads modelled on character lists: trim surrounding whitespace,
parse one JSON value, require that nothing but whitespace remains. -/
def jsonParseList (l : List Char) : Option Json :=
  let cs := trimChars l
  match parseVal (4 * cs.length + 8) cs with
  | some (j, rest) => if (skipWs rest).isEmpty then some j else none
  | none => none

/-- json.loads modelled. -/
def jsonParse (s : String) : Option Json :=
  jsonParseList s.data

/-- src/specgen/llm.py LLMClient._chat_json_mode result handling: the
message content of the backend response, with None or an empty string
replaced by the literal text of an empty JSON object. -/
def chat_json_mode_text (content : Option String) : String :=
  match content with
  | none => "\x7b\x7d"
  | some s => if s = "" then ("\x7b\x7d") else s

/-- src/specgen/llm.py LLMClient.generate_json post-processing: strip code
fences from the raw backend text, then parse it as JSON (json.loads raises
on failure, modelled as none). -/
def generate_json_of_raw (raw : String) : Option Json :=
  jsonParse (strip_code_fences raw)

/-- Observable steps of a pipeline run: a first generation call for an
artifact, a repair call for an artifact, an artifact file write, and the
final usage-note write of generate_all. -/
inductive Event where
  | genInit (filename user : String) : Event
  | genRepair (filename user : String) : Event
  | write (filename : String) (data : Json) : Event
  | writeUsage : Event

/-- Exceptions escaping the pipeline: json.JSONDecodeError from
generate_json, or jsonschema.ValidationError re-raised after the repair
budget is exhausted. -/
inductive RunError where
  | parseFailure : RunError
  | schemaError (msg : String) : RunError

/-- The backend is an oracle giving the raw text of the i-th generate_json
call of the run; this call returns the parsed candidate, none standing for
a json.loads failure. -/
def backendJson (backend : Nat → String) (i : Nat) : Option Json :=
  generate_json_of_raw (backend i)

/-- src/specgen/generator.py _validate_or_repair: validate the candidate;
on failure, while repair attempts remain, ask the backend again with the
original user prompt extended by the validator error, replacing the
candidate wholesale; when attempts run out re-raise the validation error.
Besides the Python result it returns the next backend call index and the
list of backend calls it made. -/
def validate_or_repair (backend : Nat → String) (filename user : String) (schema : JSchema) :
    Json → Nat → Nat → Except RunError Json × Nat × List Event
  | data, i, 0 =>
    (match validate data schema with
     | .ok _ => (.ok data, i, [])
     | .error e => (.error (.schemaError e), i, []))
  | data, i, Nat.succ f =>
    match validate data schema with
    | .ok _ => (.ok data, i, [])
    | .error e =>
      let ru := repair_user user e
      match backendJson backend i with
      | none => (.error .parseFailure, i + 1, [.genRepair filename ru])
      | some d =>
        let r := validate_or_repair backend filename user schema d (i + 1) f
        (r.1, r.2.1, .genRepair filename ru :: r.2.2)

/-- The loop of src/specgen/generator.py generate_all over a list of
(filename, schema) targets: build the prompt, get an initial candidate,
run the repair loop with the default budget of two repairs, persist the
validated candidate, record it, and continue; any error aborts the
remaining targets.  Returns the Python result (the results dict as an
ordered list), the next backend call index, and the event trace. -/
def runPipeline (backend : Nat → String) (spec_text docs_text : String) :
    Nat → List (String × JSchema) → Except RunError (List (String × Json)) × Nat × List Event
  | i, [] => (.ok [], i, [])
  | i, (filename, schema) :: rest =>
    let user := build_user_prompt spec_text docs_text filename
    match backendJson backend i with
    | none => (.error .parseFailure, i + 1, [.genInit filename user])
    | some data =>
      let vr := validate_or_repair backend filename user schema data (i + 1) 2
      match vr.1 with
      | .error e => (.error e, vr.2.1, .genInit filename user :: vr.2.2)
      | .ok d =>
        let rp := runPipeline backend spec_text docs_text vr.2.1 rest
        ((rp.1).map (fun l => (filename, d) :: l), rp.2.1,
          .genInit filename user :: (vr.2.2 ++ (.write filename d :: rp.2.2)))

/-- src/specgen/generator.py generate_all: run the pipeline over
FILE_ORDER starting at the first backend call and append the USAGE.md
write once all four artifacts succeeded. -/
def generate_all (backend : Nat → String) (spec_text docs_text : String) :
    Except RunError (List (String × Json)) × List Event :=
  let r := runPipeline backend spec_text docs_text 0 FILE_ORDER
  match r.1 with
  | .ok l => (.ok l, r.2.2 ++ [.writeUsage])
  | .error e => (.error e, r.2.2)

/-- An event is a backend invocation made for the given artifact. -/
def isCall (f : String) : Event → Bool
  | .genInit g _ => g == f
  | .genRepair g _ => g == f
  | _ => false

/-- Number of backend invocations made for the given artifact in a trace. -/
def countCalls (f : String) (tr : List Event) : Nat :=
  (tr.filter (isCall f)).length

/-- Filenames of file writes in a trace, in order. -/
def writesOf (tr : List Event) : List String :=
  tr.filterMap (fun e => match e with | .write f _ => some f | _ => none)

/-- Artifacts whose generation began in a trace, in order. -/
def initsOf (tr : List Event) : List String :=
  tr.filterMap (fun e => match e with | .genInit f _ => some f | _ => none)

/-- A trace consists, target by target, of the target's first generation
call with the prompt built from the specification and docs texts, its
repair calls, and its file write — in exactly the order of the target
list. -/
def SegTrace (spec_text docs_text : String) : List (String × JSchema) → List Event → Prop
  | [], tr => tr = []
  | (f, _) :: rest, tr =>
    ∃ repairs d tr2, (∀ e ∈ repairs, ∃ v, e = Event.genRepair f v) ∧
      tr = Event.genInit f (build_user_prompt spec_text docs_text f) :: (repairs ++ Event.write f d :: tr2) ∧
      SegTrace spec_text docs_text rest tr2

/-- The trace of a failing artifact: its first generation call with the
prompt built from the specification and docs texts, then repair calls
only — no file write. -/
def FailSeg (spec_text docs_text f : String) (tr : List Event) : Prop :=
  ∃ repairs, (∀ e ∈ repairs, ∃ v, e = Event.genRepair f v) ∧
    tr = Event.genInit f (build_user_prompt spec_text docs_text f) :: repairs

/-- A response wrapped in triple-backtick code fences with a language tag
line (the tag may be empty, giving a bare fence line). -/
def fenced_wrap (tag inner : String) : String :=
  "```" ++ tag ++ "\n" ++ inner ++ "\n```"

/-- A backend whose responses are schema-valid for the four artifacts in
order, used to exercise successful runs. -/
def okBackend : Nat → String
  | 0 => "\x7b\"Elements\": []\x7d"
  | 1 => "\x7b\"Elements\": []\x7d"
  | 2 => "\x7b\"States\": []\x7d"
  | _ => "\x7b\"Transitions\": []\x7d"

/-- A backend that always answers with an empty JSON object, which is
schema-invalid for every artifact. -/
def badBackend : Nat → String :=
  fun _ => "\x7b\x7d"

/-- A backend that answers with an empty object on its first call and with
a schema-valid InteractionElements object afterwards. -/
def lateBackend : Nat → String :=
  fun n => if n = 0 then ("\x7b\x7d") else ("\x7b\"Elements\": []\x7d")

/-- The candidate sequence produced by lateBackend repair calls. -/
def lateCandidates : Nat → Json :=
  fun k => if k = 0 then Json.obj [] else Json.obj [("Elements", Json.arr [])]

/-- The candidate sequence produced by badBackend repair calls. -/
def badCandidates : Nat → Json :=
  fun _ => Json.obj []

/-- The pipeline result produced by a run against okBackend. -/
def okResults : List (String × Json) :=
  [("InteractionElements.json", Json.obj [("Elements", Json.arr [])]),
   ("VisualizationElements.json", Json.obj [("Elements", Json.arr [])]),
   ("States.json", Json.obj [("States", Json.arr [])]),
   ("Transitions.json", Json.obj [("Transitions", Json.arr [])])]

theorem validate_ok_iff (j : Json) (s : JSchema) : validate j s = .ok () ↔ validateB j s = true := by
  unfold validate
  constructor
  · intro h
    by_contra hb
    simp [hb] at h
  · intro h
    simp [h]

theorem vor_step (backend : Nat → String) (filename user : String) (schema : JSchema)
    (data : Json) (i f : Nat) :
    validate_or_repair backend filename user schema data i (f + 1) =
      (match validate data schema with
       | .ok _ => (.ok data, i, [])
       | .error e =>
         match backendJson backend i with
         | none => (.error .parseFailure, i + 1, [.genRepair filename (repair_user user e)])
         | some d =>
           ((validate_or_repair backend filename user schema d (i + 1) f).1,
            (validate_or_repair backend filename user schema d (i + 1) f).2.1,
            .genRepair filename (repair_user user e) ::
              (validate_or_repair backend filename user schema d (i + 1) f).2.2)) := rfl

theorem vor_events_shape (backend : Nat → String) (filename user : String) (schema : JSchema) :
    ∀ (fuel : Nat) (data : Json) (i : Nat),
      ∀ e ∈ (validate_or_repair backend filename user schema data i fuel).2.2,
        ∃ v, e = Event.genRepair filename v := by
  intro fuel
  induction fuel with
  | zero =>
    intro data i e he
    unfold validate_or_repair at he
    cases h : validate data schema with
    | ok u => simp [h] at he
    | error m => simp [h] at he
  | succ f ih =>
    intro data i e he
    unfold validate_or_repair at he
    cases h : validate data schema with
    | ok u => simp [h] at he
    | error m =>
      simp only [h] at he
      cases hb : backendJson backend i with
      | none =>
        simp [hb] at he
        exact ⟨_, he⟩
      | some d =>
        simp only [hb, List.mem_cons] at he
        rcases he with he | he
        · exact ⟨_, he⟩
        · exact ih d (i + 1) e he

theorem vor_events_length (backend : Nat → String) (filename user : String) (schema : JSchema) :
    ∀ (fuel : Nat) (data : Json) (i : Nat),
      (validate_or_repair backend filename user schema data i fuel).2.2.length ≤ fuel := by
  intro fuel
  induction fuel with
  | zero =>
    intro data i
    unfold validate_or_repair
    cases h : validate data schema with
    | ok u => simp [h]
    | error m => simp [h]
  | succ f ih =>
    intro data i
    unfold validate_or_repair
    cases h : validate data schema with
    | ok u => simp [h]
    | error m =>
      simp only [h]
      cases hb : backendJson backend i with
      | none => simp [hb]
      | some d =>
        simp only [hb, List.length_cons]
        have := ih d (i + 1)
        omega

theorem vor_ok_valid (backend : Nat → String) (filename user : String) (schema : JSchema) :
    ∀ (fuel : Nat) (data : Json) (i : Nat) (d : Json),
      (validate_or_repair backend filename user schema data i fuel).1 = .ok d →
        validateB d schema = true := by
  intro fuel
  induction fuel with
  | zero =>
    intro data i d hd
    unfold validate_or_repair at hd
    cases h : validate data schema with
    | ok u =>
      simp [h] at hd
      subst hd
      unfold validate at h
      by_contra hb
      simp [hb] at h
    | error m => simp [h] at hd
  | succ f ih =>
    intro data i d hd
    unfold validate_or_repair at hd
    cases h : validate data schema with
    | ok u =>
      simp [h] at hd
      subst hd
      unfold validate at h
      by_contra hb
      simp [hb] at h
    | error m =>
      simp only [h] at hd
      cases hb : backendJson backend i with
      | none => simp [hb] at hd
      | some d2 =>
        simp only [hb] at hd
        exact ih d2 (i + 1) d hd

theorem vor_calls_other (backend : Nat → String) (filename user : String) (schema : JSchema)
    (fuel : Nat) (data : Json) (i : Nat) (f : String) (hf : f ≠ filename) :
    countCalls f (validate_or_repair backend filename user schema data i fuel).2.2 = 0 := by
  unfold countCalls
  have hnil : (validate_or_repair backend filename user schema data i fuel).2.2.filter (isCall f) = [] := by
    apply List.filter_eq_nil_iff.mpr
    intro e he
    obtain ⟨v, hv⟩ := vor_events_shape backend filename user schema fuel data i e he
    subst hv
    simp [isCall]
    intro h
    exact hf h.symm
  simp [hnil]

theorem run_genInit_prompt (backend : Nat → String) (spec_text docs_text : String) :
    ∀ (arts : List (String × JSchema)) (i : Nat) (f u : String),
      Event.genInit f u ∈ (runPipeline backend spec_text docs_text i arts).2.2 →
      u = build_user_prompt spec_text docs_text f := by
  intro arts
  induction arts with
  | nil =>
    intro i f u h
    simp [runPipeline] at h
  | cons hd rest ih =>
    obtain ⟨g, sc⟩ := hd
    intro i f u h
    unfold runPipeline at h
    cases hb : backendJson backend i with
    | none =>
      simp [hb] at h
      rw [h.2, h.1]
    | some data =>
      simp only [hb] at h
      cases hv : (validate_or_repair backend g (build_user_prompt spec_text docs_text g) sc data (i + 1) 2).1 with
      | error e =>
        simp only [hv, List.mem_cons] at h
        rcases h with h | h
        · rw [(Event.genInit.injEq _ _ _ _).mp h |>.2, (Event.genInit.injEq _ _ _ _).mp h |>.1]
        · obtain ⟨v, hv2⟩ := vor_events_shape backend g _ sc 2 data (i + 1) _ h
          simp at hv2
      | ok d =>
        simp only [hv, List.mem_cons, List.mem_append] at h
        rcases h with h | h | h | h
        · rw [(Event.genInit.injEq _ _ _ _).mp h |>.2, (Event.genInit.injEq _ _ _ _).mp h |>.1]
        · obtain ⟨v, hv2⟩ := vor_events_shape backend g _ sc 2 data (i + 1) _ h
          simp at hv2
        · simp at h
        · exact ih _ f u h

theorem run_write_valid (backend : Nat → String) (spec_text docs_text : String) :
    ∀ (arts : List (String × JSchema)) (i : Nat) (f : String) (dj : Json),
      Event.write f dj ∈ (runPipeline backend spec_text docs_text i arts).2.2 →
      ∃ sc, (f, sc) ∈ arts ∧ validateB dj sc = true := by
  intro arts
  induction arts with
  | nil =>
    intro i f dj h
    simp [runPipeline] at h
  | cons hd rest ih =>
    obtain ⟨g, sc⟩ := hd
    intro i f dj h
    unfold runPipeline at h
    cases hb : backendJson backend i with
    | none => simp [hb] at h
    | some data =>
      simp only [hb] at h
      cases hv : (validate_or_repair backend g (build_user_prompt spec_text docs_text g) sc data (i + 1) 2).1 with
      | error e =>
        simp only [hv, List.mem_cons] at h
        rcases h with h | h
        · simp at h
        · obtain ⟨v, hv2⟩ := vor_events_shape backend g _ sc 2 data (i + 1) _ h
          simp at hv2
      | ok d =>
        simp only [hv, List.mem_cons, List.mem_append] at h
        rcases h with h | h | h | h
        · simp at h
        · obtain ⟨v, hv2⟩ := vor_events_shape backend g _ sc 2 data (i + 1) _ h
          simp at hv2
        · obtain ⟨hf, hd2⟩ := (Event.write.injEq _ _ _ _).mp h
          refine ⟨sc, ?_, ?_⟩
          · rw [hf]; exact List.mem_cons_self _ _
          · rw [hd2]; exact vor_ok_valid backend g _ sc 2 data (i + 1) d hv
        · obtain ⟨sc2, hm, hval⟩ := ih _ f dj h
          exact ⟨sc2, List.mem_cons_of_mem _ hm, hval⟩

theorem run_ok_valid (backend : Nat → String) (spec_text docs_text : String) :
    ∀ (arts : List (String × JSchema)) (i : Nat) (l : List (String × Json)),
      (runPipeline backend spec_text docs_text i arts).1 = .ok l →
      ∀ p ∈ l, ∃ sc, (p.1, sc) ∈ arts ∧ validateB p.2 sc = true := by
  intro arts
  induction arts with
  | nil =>
    intro i l h p hp
    simp [runPipeline] at h
    subst h
    simp at hp
  | cons hd rest ih =>
    obtain ⟨g, sc⟩ := hd
    intro i l h p hp
    unfold runPipeline at h
    cases hb : backendJson backend i with
    | none => simp [hb] at h
    | some data =>
      simp only [hb] at h
      cases hv : (validate_or_repair backend g (build_user_prompt spec_text docs_text g) sc data (i + 1) 2).1 with
      | error e => simp [hv] at h
      | ok d =>
        simp only [hv] at h
        cases hr : (runPipeline backend spec_text docs_text
            (validate_or_repair backend g (build_user_prompt spec_text docs_text g) sc data (i + 1) 2).2.1 rest).1 with
        | error e2 => simp [hr, Except.map] at h
        | ok l2 =>
          simp only [hr, Except.map] at h
          cases h
          simp only [List.mem_cons] at hp
          rcases hp with hp | hp
          · subst hp
            exact ⟨sc, List.mem_cons_self _ _, vor_ok_valid backend g _ sc 2 data (i + 1) d hv⟩
          · obtain ⟨sc2, hm, hval⟩ := ih _ l2 hr p hp
            exact ⟨sc2, List.mem_cons_of_mem _ hm, hval⟩

theorem run_ok_seg (backend : Nat → String) (spec_text docs_text : String) :
    ∀ (arts : List (String × JSchema)) (i : Nat) (l : List (String × Json)),
      (runPipeline backend spec_text docs_text i arts).1 = .ok l →
      SegTrace spec_text docs_text arts (runPipeline backend spec_text docs_text i arts).2.2 := by
  intro arts
  induction arts with
  | nil =>
    intro i l _
    simp [runPipeline, SegTrace]
  | cons hd rest ih =>
    obtain ⟨g, sc⟩ := hd
    intro i l h
    unfold runPipeline at h ⊢
    cases hb : backendJson backend i with
    | none => simp [hb] at h
    | some data =>
      simp only [hb] at h ⊢
      cases hv : (validate_or_repair backend g (build_user_prompt spec_text docs_text g) sc data (i + 1) 2).1 with
      | error e => simp [hv] at h
      | ok d =>
        simp only [hv] at h ⊢
        cases hr : (runPipeline backend spec_text docs_text
            (validate_or_repair backend g (build_user_prompt spec_text docs_text g) sc data (i + 1) 2).2.1 rest).1 with
        | error e2 => simp [hr, Except.map] at h
        | ok l2 =>
          refine ⟨(validate_or_repair backend g (build_user_prompt spec_text docs_text g) sc data (i + 1) 2).2.2,
            d, (runPipeline backend spec_text docs_text
              (validate_or_repair backend g (build_user_prompt spec_text docs_text g) sc data (i + 1) 2).2.1 rest).2.2,
            ?_, rfl, ?_⟩
          · exact vor_events_shape backend g _ sc 2 data (i + 1)
          · exact ih _ l2 hr

theorem run_err_shape (backend : Nat → String) (spec_text docs_text : String) :
    ∀ (arts : List (String × JSchema)) (i : Nat) (err : RunError),
      (runPipeline backend spec_text docs_text i arts).1 = .error err →
      ∃ done fx sx rest tr1 tr2,
        arts = done ++ (fx, sx) :: rest ∧
        (runPipeline backend spec_text docs_text i arts).2.2 = tr1 ++ tr2 ∧
        SegTrace spec_text docs_text done tr1 ∧
        FailSeg spec_text docs_text fx tr2 := by
  intro arts
  induction arts with
  | nil =>
    intro i err h
    simp [runPipeline] at h
  | cons hd rest ih =>
    obtain ⟨g, sc⟩ := hd
    intro i err h
    unfold runPipeline at h ⊢
    cases hb : backendJson backend i with
    | none =>
      simp only [hb]
      refine ⟨[], g, sc, rest, [], [Event.genInit g (build_user_prompt spec_text docs_text g)],
        rfl, by simp, by simp [SegTrace], ⟨[], by simp, by simp⟩⟩
    | some data =>
      simp only [hb] at h ⊢
      cases hv : (validate_or_repair backend g (build_user_prompt spec_text docs_text g) sc data (i + 1) 2).1 with
      | error e =>
        simp only [hv]
        refine ⟨[], g, sc, rest, [],
          Event.genInit g (build_user_prompt spec_text docs_text g) ::
            (validate_or_repair backend g (build_user_prompt spec_text docs_text g) sc data (i + 1) 2).2.2,
          rfl, by simp, by simp [SegTrace], ?_⟩
        exact ⟨_, vor_events_shape backend g _ sc 2 data (i + 1), rfl⟩
      | ok d =>
        simp only [hv] at h ⊢
        cases hr : (runPipeline backend spec_text docs_text
            (validate_or_repair backend g (build_user_prompt spec_text docs_text g) sc data (i + 1) 2).2.1 rest).1 with
        | ok l2 => simp [hr, Except.map] at h
        | error e2 =>
          obtain ⟨done2, fx, sx, rest2, tr1, tr2, hart, htr, hseg, hfail⟩ := ih _ e2 hr
          refine ⟨(g, sc) :: done2, fx, sx, rest2,
            Event.genInit g (build_user_prompt spec_text docs_text g) ::
              ((validate_or_repair backend g (build_user_prompt spec_text docs_text g) sc data (i + 1) 2).2.2 ++
                Event.write g d :: tr1),
            tr2, by rw [hart]; simp, ?_, ?_, hfail⟩
          · rw [htr]
            simp
          · exact ⟨_, d, tr1, vor_events_shape backend g _ sc 2 data (i + 1), rfl, hseg⟩

theorem segTrace_writes (spec_text docs_text : String) :
    ∀ (arts : List (String × JSchema)) (tr : List Event),
      SegTrace spec_text docs_text arts tr → writesOf tr = arts.map Prod.fst := by
  intro arts
  induction arts with
  | nil =>
    intro tr h
    rw [h]
    simp [writesOf]
  | cons hd rest ih =>
    obtain ⟨g, sc⟩ := hd
    intro tr h
    obtain ⟨repairs, d, tr2, hrep, htr, hseg⟩ := h
    subst htr
    have hreps : writesOf repairs = [] := by
      simp only [writesOf]
      apply List.filterMap_eq_nil_iff.mpr
      intro e he
      obtain ⟨v, hv⟩ := hrep e he
      subst hv
      rfl
    simp only [writesOf, List.filterMap_cons, List.filterMap_append] at *
    simp [hreps, ih tr2 hseg]

theorem segTrace_inits (spec_text docs_text : String) :
    ∀ (arts : List (String × JSchema)) (tr : List Event),
      SegTrace spec_text docs_text arts tr → initsOf tr = arts.map Prod.fst := by
  intro arts
  induction arts with
  | nil =>
    intro tr h
    rw [h]
    simp [initsOf]
  | cons hd rest ih =>
    obtain ⟨g, sc⟩ := hd
    intro tr h
    obtain ⟨repairs, d, tr2, hrep, htr, hseg⟩ := h
    subst htr
    have hreps : initsOf repairs = [] := by
      simp only [initsOf]
      apply List.filterMap_eq_nil_iff.mpr
      intro e he
      obtain ⟨v, hv⟩ := hrep e he
      subst hv
      rfl
    simp only [initsOf, List.filterMap_cons, List.filterMap_append] at *
    simp [hreps, ih tr2 hseg]

theorem failSeg_writes (spec_text docs_text fx : String) (tr : List Event)
    (h : FailSeg spec_text docs_text fx tr) : writesOf tr = [] := by
  obtain ⟨repairs, hrep, htr⟩ := h
  subst htr
  simp only [writesOf, List.filterMap_cons]
  apply List.filterMap_eq_nil_iff.mpr
  intro e he
  obtain ⟨v, hv⟩ := hrep e he
  subst hv
  rfl

theorem countCalls_cons (f : String) (e : Event) (tr : List Event) :
    countCalls f (e :: tr) = (if isCall f e then 1 else 0) + countCalls f tr := by
  simp only [countCalls, List.filter_cons]
  split
  · simp [Nat.add_comm]
  · simp

theorem countCalls_append (f : String) (tr1 tr2 : List Event) :
    countCalls f (tr1 ++ tr2) = countCalls f tr1 + countCalls f tr2 := by
  simp [countCalls, List.filter_append]

theorem countCalls_le_length (f : String) (tr : List Event) : countCalls f tr ≤ tr.length :=
  List.length_filter_le _ _

theorem run_count (backend : Nat → String) (spec_text docs_text : String) :
    ∀ (arts : List (String × JSchema)) (i : Nat) (f : String),
      countCalls f (runPipeline backend spec_text docs_text i arts).2.2 ≤
        3 * (arts.map Prod.fst).count f := by
  intro arts
  induction arts with
  | nil =>
    intro i f
    simp [runPipeline, countCalls]
  | cons hd rest ih =>
    obtain ⟨g, sc⟩ := hd
    intro i f
    have hcnt : ((((g, sc) :: rest).map Prod.fst).count f) = (rest.map Prod.fst).count f + (if g = f then 1 else 0) := by
      simp only [List.map_cons, List.count_cons]
      split <;> split <;> simp_all [beq_iff_eq]
    unfold runPipeline
    cases hb : backendJson backend i with
    | none =>
      simp only [hb]
      rw [countCalls_cons]
      have : countCalls f ([] : List Event) = 0 := by simp [countCalls]
      rw [this, hcnt]
      by_cases hgf : g = f
      · simp [isCall, hgf]
        omega
      · simp [isCall, hgf]
    | some data =>
      simp only [hb]
      cases hv : (validate_or_repair backend g (build_user_prompt spec_text docs_text g) sc data (i + 1) 2).1 with
      | error e =>
        simp only [hv]
        rw [countCalls_cons, hcnt]
        by_cases hgf : g = f
        · subst hgf
          have h2 : countCalls g (validate_or_repair backend g (build_user_prompt spec_text docs_text g) sc data (i + 1) 2).2.2 ≤ 2 := by
            calc countCalls g _ ≤ _ := countCalls_le_length g _
              _ ≤ 2 := vor_events_length backend g _ sc 2 data (i + 1)
          simp only [isCall, beq_self_eq_true, if_pos]
          omega
        · have h0 := vor_calls_other backend g (build_user_prompt spec_text docs_text g) sc 2 data (i + 1) f
            (fun h => hgf h.symm)
          simp [isCall, hgf, h0, beq_iff_eq]
      | ok d =>
        simp only [hv]
        rw [countCalls_cons, countCalls_append, countCalls_cons, hcnt]
        have hwr : isCall f (Event.write g d) = false := rfl
        have h3 := ih (validate_or_repair backend g (build_user_prompt spec_text docs_text g) sc data (i + 1) 2).2.1 f
        by_cases hgf : g = f
        · subst hgf
          have h2 : countCalls g (validate_or_repair backend g (build_user_prompt spec_text docs_text g) sc data (i + 1) 2).2.2 ≤ 2 :=
            le_trans (countCalls_le_length g _) (vor_events_length backend g _ sc 2 data (i + 1))
          have hg : isCall g (Event.genInit g (build_user_prompt spec_text docs_text g)) = true := by
            simp [isCall]
          rw [hwr, hg, if_pos rfl, if_pos rfl]
          simp only [if_false, Bool.false_eq_true]
          omega
        · have h0 := vor_calls_other backend g (build_user_prompt spec_text docs_text g) sc 2 data (i + 1) f
            (fun h => hgf h.symm)
          have hg : isCall f (Event.genInit g (build_user_prompt spec_text docs_text g)) = false := by
            simp [isCall, beq_iff_eq]
            exact hgf
          rw [hwr, hg, h0, if_neg hgf]
          simp only [Bool.false_eq_true, if_false]
          omega

theorem genall_count (backend : Nat → String) (spec_text docs_text f : String) :
    countCalls f (generate_all backend spec_text docs_text).2 ≤ 3 := by
  have hrun := run_count backend spec_text docs_text FILE_ORDER 0 f
  have hnodup : (FILE_ORDER.map Prod.fst).Nodup := by decide
  have hcount : (FILE_ORDER.map Prod.fst).count f ≤ 1 := List.nodup_iff_count_le_one.mp hnodup f
  unfold generate_all
  cases hr : (runPipeline backend spec_text docs_text 0 FILE_ORDER).1 with
  | ok l =>
    simp only [hr]
    rw [countCalls_append]
    have : countCalls f [Event.writeUsage] = 0 := by simp [countCalls, isCall]
    omega
  | error e =>
    simp only [hr]
    omega

theorem vor_scenario_success (backend : Nat → String) (filename user : String) (schema : JSchema) :
    ∀ (f : Nat) (c : Nat → Json) (data : Json) (i : Nat),
      (∀ k, backendJson backend (i + k) = some (c k)) →
      validateB data schema = false →
      (∀ k, k < f → validateB (c k) schema = false) →
      validateB (c f) schema = true →
      (validate_or_repair backend filename user schema data i (f + 1)).1 = .ok (c f) ∧
      (validate_or_repair backend filename user schema data i (f + 1)).2.2.length = f + 1 := by
  intro f
  induction f with
  | zero =>
    intro c data i hp hd hk hl
    have h0 : backendJson backend i = some (c 0) := by simpa using hp 0
    rw [vor_step]
    refine ⟨?_, ?_⟩ <;>
      simp [validate_or_repair, validate, hd, h0, hl]
  | succ f ih =>
    intro c data i hp hd hk hl
    have h0 : backendJson backend i = some (c 0) := by simpa using hp 0
    have ih' := ih (fun k => c (k + 1)) (c 0) (i + 1)
      (by
        intro k
        rw [show i + 1 + k = i + (k + 1) by omega]
        exact hp (k + 1))
      (hk 0 (Nat.succ_pos f))
      (by
        intro k hkf
        exact hk (k + 1) (Nat.succ_lt_succ hkf))
      hl
    rw [vor_step]
    simp only [validate, hd, Bool.false_eq_true, if_false, h0]
    exact ⟨ih'.1, by simp [ih'.2]⟩

theorem vor_scenario_fail (backend : Nat → String) (filename user : String) (schema : JSchema) :
    ∀ (f : Nat) (c : Nat → Json) (data : Json) (i : Nat),
      (∀ k, backendJson backend (i + k) = some (c k)) →
      validateB data schema = false →
      (∀ k, k < f → validateB (c k) schema = false) →
      ∃ m, (validate_or_repair backend filename user schema data i f).1 = .error (.schemaError m) := by
  intro f
  induction f with
  | zero =>
    intro c data i hp hd hk
    exact ⟨errMsg data schema, by simp [validate_or_repair, validate, hd]⟩
  | succ f ih =>
    intro c data i hp hd hk
    have h0 : backendJson backend i = some (c 0) := by simpa using hp 0
    obtain ⟨m, hm⟩ := ih (fun k => c (k + 1)) (c 0) (i + 1)
      (by
        intro k
        rw [show i + 1 + k = i + (k + 1) by omega]
        exact hp (k + 1))
      (hk 0 (Nat.succ_pos f))
      (by
        intro k hkf
        exact hk (k + 1) (Nat.succ_lt_succ hkf))
    refine ⟨m, ?_⟩
    rw [vor_step]
    simp only [validate, hd, Bool.false_eq_true, if_false, h0]
    exact hm

theorem failSeg_inits (spec_text docs_text fx : String) (tr : List Event)
    (h : FailSeg spec_text docs_text fx tr) : initsOf tr = [fx] := by
  obtain ⟨repairs, hrep, htr⟩ := h
  subst htr
  simp only [initsOf, List.filterMap_cons]
  have : List.filterMap (fun e => match e with | .genInit f _ => some f | _ => none) repairs = [] := by
    apply List.filterMap_eq_nil_iff.mpr
    intro e he
    obtain ⟨v, hv⟩ := hrep e he
    subst hv
    rfl
  simp [this]

theorem dropWhile_append_all (p : Char → Bool) (m r : List Char) (hm : ∀ c ∈ m, p c = true) :
    (m ++ r).dropWhile p = r.dropWhile p := by
  induction m with
  | nil => simp
  | cons a t ih =>
    rw [List.cons_append, List.dropWhile_cons]
    rw [hm a (List.mem_cons_self a t)]
    simp only [if_true]
    exact ih (fun c hc => hm c (List.mem_cons_of_mem a hc))

theorem dropWhile_cons_false (p : Char → Bool) (a : Char) (l : List Char) (h : p a = false) :
    (a :: l).dropWhile p = a :: l := by
  rw [List.dropWhile_cons, h]
  simp

theorem dropTrailWhile_concat_false (p : Char → Bool) (a : Char) (l : List Char) (h : p a = false) :
    dropTrailWhile p (l ++ [a]) = l ++ [a] := by
  unfold dropTrailWhile
  rw [List.reverse_append]
  simp only [List.reverse_cons, List.reverse_nil, List.nil_append, List.singleton_append]
  rw [dropWhile_cons_false p a l.reverse h]
  simp

theorem dropTrailWhile_stop (p : Char → Bool) (σ : List Char) (a : Char) (ts : List Char)
    (hts : ∀ c ∈ ts, p c = true) (ha : p a = false) :
    dropTrailWhile p (σ ++ a :: ts) = σ ++ [a] := by
  unfold dropTrailWhile
  rw [List.reverse_append, List.reverse_cons]
  rw [List.append_assoc]
  rw [dropWhile_append_all p ts.reverse _ (fun c hc => hts c (List.mem_reverse.mp hc))]
  rw [List.singleton_append, dropWhile_cons_false p a σ.reverse ha]
  simp

theorem afterFirstNewline_skip (m r : List Char) (hm : '\n' ∉ m) :
    afterFirstNewline (m ++ '\n' :: r) = some r := by
  induction m with
  | nil =>
    simp [afterFirstNewline]
  | cons a t ih =>
    have ha : a ≠ '\n' := fun h => hm (h ▸ List.mem_cons_self a t)
    rw [List.cons_append]
    unfold afterFirstNewline
    rw [if_neg ha]
    exact ih (fun h => hm (List.mem_cons_of_mem a h))

theorem trimChars_append_newline (l : List Char) :
    trimChars (l ++ ['\n']) = trimChars l := by
  unfold trimChars
  have : dropTrailWhile isWs (l ++ ['\n']) = dropTrailWhile isWs l := by
    unfold dropTrailWhile
    rw [List.reverse_append]
    simp only [List.reverse_cons, List.reverse_nil, List.nil_append, List.singleton_append]
    rw [List.dropWhile_cons]
    simp [isWs]
  rw [this]

theorem jsonParseList_newline (l : List Char) :
    jsonParseList (l ++ ['\n']) = jsonParseList l := by
  unfold jsonParseList
  rw [trimChars_append_newline]

theorem ticks_data : ("```" : String).data = [tick, tick, tick] := by decide

theorem nl_ticks_data : ("\n```" : String).data = '\n' :: [tick, tick, tick] := by decide

theorem nl_data : ("\n" : String).data = ['\n'] := by decide

theorem fenced_wrap_data (tag inner : String) :
    (fenced_wrap tag inner).data =
      tick :: tick :: tick :: (tag.data ++ '\n' :: (inner.data ++ '\n' :: [tick, tick, tick])) := by
  unfold fenced_wrap
  rw [String.data_append, String.data_append, String.data_append, String.data_append]
  rw [ticks_data, nl_ticks_data, nl_data]
  simp

theorem strip_fenced_wrap (tag inner : String)
    (h1 : '\n' ∉ tag.data) (h2 : tick ∉ tag.data) :
    strip_code_fences (fenced_wrap tag inner) = String.mk (inner.data ++ ['\n']) := by
  unfold strip_code_fences
  rw [fenced_wrap_data]
  have htrim : trimChars (tick :: tick :: tick :: (tag.data ++ '\n' :: (inner.data ++ '\n' :: [tick, tick, tick]))) =
      tick :: tick :: tick :: (tag.data ++ '\n' :: (inner.data ++ '\n' :: [tick, tick, tick])) := by
    unfold trimChars
    have hshape : tick :: tick :: tick :: (tag.data ++ '\n' :: (inner.data ++ '\n' :: [tick, tick, tick])) =
        (tick :: tick :: tick :: (tag.data ++ '\n' :: (inner.data ++ ['\n', tick, tick]))) ++ [tick] := by
      simp
    rw [hshape, dropTrailWhile_concat_false isWs tick _ (by decide), ← hshape]
    exact dropWhile_cons_false isWs tick _ (by decide)
  have htake : (tick :: tick :: tick :: (tag.data ++ '\n' :: (inner.data ++ '\n' :: [tick, tick, tick]))).take 3 =
      [tick, tick, tick] := by
    simp [List.take]
  have hdrop : (tick :: tick :: tick :: (tag.data ++ '\n' :: (inner.data ++ '\n' :: [tick, tick, tick]))).dropWhile
      (fun c => c == tick) = tag.data ++ '\n' :: (inner.data ++ '\n' :: [tick, tick, tick]) := by
    rw [List.dropWhile_cons, List.dropWhile_cons, List.dropWhile_cons]
    simp only [beq_self_eq_true, if_true]
    cases htag : tag.data with
    | nil =>
      simp only [List.nil_append]
      exact dropWhile_cons_false _ '\n' _ (by decide)
    | cons a t =>
      have ha : (a == tick) = false := by
        simp only [beq_eq_false_iff_ne, ne_eq]
        intro h
        exact h2 (by rw [htag, h]; exact List.mem_cons_self tick t)
      exact dropWhile_cons_false _ a _ ha
  have hticks : stripTicks (tick :: tick :: tick :: (tag.data ++ '\n' :: (inner.data ++ '\n' :: [tick, tick, tick]))) =
      tag.data ++ '\n' :: (inner.data ++ ['\n']) := by
    unfold stripTicks
    rw [hdrop]
    have hshape2 : tag.data ++ '\n' :: (inner.data ++ '\n' :: [tick, tick, tick]) =
        (tag.data ++ '\n' :: inner.data) ++ '\n' :: [tick, tick, tick] := by
      simp
    rw [hshape2, dropTrailWhile_stop (fun c => c == tick) _ '\n' [tick, tick, tick] (by decide) (by decide)]
    simp
  have hafter : afterFirstNewline (tag.data ++ '\n' :: (inner.data ++ ['\n'])) = some (inner.data ++ ['\n']) :=
    afterFirstNewline_skip tag.data (inner.data ++ ['\n']) h1
  simp only [strip_code_fences_list, htrim, htake, hticks, hafter, if_true]

theorem writesOf_append (tr1 tr2 : List Event) :
    writesOf (tr1 ++ tr2) = writesOf tr1 ++ writesOf tr2 := by
  simp [writesOf, List.filterMap_append]

theorem initsOf_append (tr1 tr2 : List Event) :
    initsOf (tr1 ++ tr2) = initsOf tr1 ++ initsOf tr2 := by
  simp [initsOf, List.filterMap_append]

theorem run_ok_names (backend : Nat → String) (spec_text docs_text : String) :
    ∀ (arts : List (String × JSchema)) (i : Nat) (l : List (String × Json)),
      (runPipeline backend spec_text docs_text i arts).1 = .ok l →
      l.map Prod.fst = arts.map Prod.fst := by
  intro arts
  induction arts with
  | nil =>
    intro i l h
    simp [runPipeline] at h
    subst h
    simp
  | cons hd rest ih =>
    obtain ⟨g, sc⟩ := hd
    intro i l h
    unfold runPipeline at h
    cases hb : backendJson backend i with
    | none => simp [hb] at h
    | some data =>
      simp only [hb] at h
      cases hv : (validate_or_repair backend g (build_user_prompt spec_text docs_text g) sc data (i + 1) 2).1 with
      | error e => simp [hv] at h
      | ok d =>
        simp only [hv] at h
        cases hr : (runPipeline backend spec_text docs_text
            (validate_or_repair backend g (build_user_prompt spec_text docs_text g) sc data (i + 1) 2).2.1 rest).1 with
        | error e2 => simp [hr, Except.map] at h
        | ok l2 =>
          simp only [hr, Except.map] at h
          cases h
          simp only [List.map_cons]
          rw [ih _ l2 hr]

theorem pairUp_dropLast : ∀ (l : List String), l.length % 2 = 1 → pairUp l = pairUp l.dropLast
  | [] => by intro h; simp at h
  | [a] => fun _ => rfl
  | a :: b :: t => by
    intro h
    have ht : t.length % 2 = 1 := by
      simp only [List.length_cons] at h
      omega
    cases t with
    | nil => simp at ht
    | cons c t2 =>
      show (a, b) :: pairUp (c :: t2) = (a, b) :: pairUp ((c :: t2).dropLast)
      rw [pairUp_dropLast (c :: t2) ht]

/-- C8: each of the four declared schemas has as its top level a single
required array-valued field with additional top-level fields disallowed,
and each array item requires exactly its listed fields (Type and Name for
InteractionElements and VisualizationElements, Name and Conditions for
States, SourceState and DestinationState for Transitions) while permitting
extra fields on items; the structural equalities are accompanied by
validator checks witnessing each part of that reading. -/
theorem c8_schema_shapes :
    (INTERACTION_ELEMENTS_SCHEMA = JSchema.obj
      [("Elements", JSchema.arrOf (JSchema.obj [("Type", JSchema.str), ("Name", JSchema.str)]
        ["Type", "Name"] true))] ["Elements"] false) ∧
    (VISUALIZATION_ELEMENTS_SCHEMA = JSchema.obj
      [("Elements", JSchema.arrOf (JSchema.obj [("Type", JSchema.str), ("Name", JSchema.str)]
        ["Type", "Name"] true))] ["Elements"] false) ∧
    (STATES_SCHEMA = JSchema.obj
      [("States", JSchema.arrOf (JSchema.obj [("Name", JSchema.str), ("Conditions", JSchema.arrAny)]
        ["Name", "Conditions"] true))] ["States"] false) ∧
    (TRANSITIONS_SCHEMA = JSchema.obj
      [("Transitions", JSchema.arrOf (JSchema.obj
        [("SourceState", JSchema.str), ("DestinationState", JSchema.str)]
        ["SourceState", "DestinationState"] true))] ["Transitions"] false) ∧
    (validateB (Json.obj []) INTERACTION_ELEMENTS_SCHEMA = false) ∧
    (validateB (Json.obj [("Elements", Json.arr [])]) INTERACTION_ELEMENTS_SCHEMA = true) ∧
    (validateB (Json.obj [("Elements", Json.arr []), ("Extra", Json.str ("x"))])
      INTERACTION_ELEMENTS_SCHEMA = false) ∧
    (validateB (Json.obj [("Elements", Json.arr
      [Json.obj [("Type", Json.str ("t")), ("Name", Json.str ("n")), ("Extra", Json.null)]])])
      INTERACTION_ELEMENTS_SCHEMA = true) ∧
    (validateB (Json.obj [("Elements", Json.arr [Json.obj [("Type", Json.str ("t"))]])])
      INTERACTION_ELEMENTS_SCHEMA = false) ∧
    (validateB (Json.obj [("States", Json.arr
      [Json.obj [("Name", Json.str ("s")), ("Conditions", Json.arr []), ("Extra", Json.null)]])])
      STATES_SCHEMA = true) ∧
    (validateB (Json.obj [("States", Json.arr [Json.obj [("Name", Json.str ("s"))]])])
      STATES_SCHEMA = false) ∧
    (validateB (Json.obj [("Transitions", Json.arr
      [Json.obj [("SourceState", Json.str ("a")), ("DestinationState", Json.str ("b")),
        ("Extra", Json.null)]])]) TRANSITIONS_SCHEMA = true) ∧
    (validateB (Json.obj [("Transitions", Json.arr [Json.obj [("SourceState", Json.str ("a"))]])])
      TRANSITIONS_SCHEMA = false) :=
  ⟨rfl, rfl, rfl, rfl, rfl, rfl, rfl, rfl, rfl, rfl, rfl, rfl, rfl⟩

/-- C9: _parse_argv always returns a well-formed triple: with at least
three arguments and an even number of entries after the first two, the
first entry is the group and the second the description; otherwise the
group defaults to GeneratedGroup and the first entry, if any, is the
description; the objects mapping is always built from complete name/type
pairs, a final unpaired token being silently dropped. -/
theorem c9_parse_argv (argv : List String) :
    (argv = [] → parse_argv argv = (("GeneratedGroup"), (""), ([] : List (String × String)))) ∧
    (∀ g d rest, argv = g :: d :: rest → rest ≠ [] → rest.length % 2 = 0 →
      parse_argv argv = (g, d, dictOfPairs (pairUp rest))) ∧
    (∀ d rest, argv = d :: rest → (rest.length = 1 ∨ rest.length % 2 = 0) →
      parse_argv argv = (("GeneratedGroup"), d, dictOfPairs (pairUp rest))) ∧
    (∀ l : List String, l.length % 2 = 1 → pairUp l = pairUp l.dropLast) := by
  refine ⟨?_, ?_, ?_, pairUp_dropLast⟩
  · intro h
    subst h
    rfl
  · intro g d rest hargv hne hev
    subst hargv
    have hlen : 0 < rest.length := List.length_pos.mpr hne
    have hcond : (g :: d :: rest).length ≥ 3 ∧ ((g :: d :: rest).length - 2) % 2 = 0 := by
      simp only [List.length_cons]
      omega
    simp only [parse_argv]
    rw [if_pos hcond]
    simp only [List.headD_cons, List.drop_one, List.tail_cons]
    rw [if_neg (show ¬rest.length % 2 ≠ 0 by omega)]
  · intro d rest hargv hc
    subst hargv
    have hcond : ¬((d :: rest).length ≥ 3 ∧ ((d :: rest).length - 2) % 2 = 0) := by
      simp only [List.length_cons]
      omega
    simp only [parse_argv]
    rw [if_neg hcond]
    by_cases hodd : rest.length % 2 ≠ 0
    · rw [if_pos hodd]
      rw [← pairUp_dropLast rest (by omega)]
    · rw [if_neg hodd]

/-- C6: parsing a response wrapped in triple-backtick fences, with or
without a language tag on the opening fence line, after stripping the
fences yields the same structured value as parsing the inner text
directly. -/
theorem c6_fence_stripping (tag inner : String)
    (h1 : '\n' ∉ tag.data) (h2 : tick ∉ tag.data) :
    jsonParse (strip_code_fences (fenced_wrap tag inner)) = jsonParse inner := by
  rw [strip_fenced_wrap tag inner h1 h2]
  show jsonParseList (inner.data ++ ['\n']) = jsonParseList inner.data
  exact jsonParseList_newline inner.data

/-- Witness for C6 at a concrete fenced response with language tag json. -/
theorem c6_fence_stripping_witness :
    ('\n' ∉ ("json" : String).data) ∧ (tick ∉ ("json" : String).data) ∧
    jsonParse (strip_code_fences (fenced_wrap ("json") ("\x7b\"Elements\": []\x7d"))) =
      jsonParse ("\x7b\"Elements\": []\x7d") :=
  ⟨by decide, by decide,
    c6_fence_stripping ("json") ("\x7b\"Elements\": []\x7d") (by decide) (by decide)⟩

/-- Witness for C9 at a concrete legacy argument list with an odd pair
tail: the unpaired token b is dropped. -/
theorem c9_parse_argv_witness :
    parse_argv [("desc"), ("a")] = (("GeneratedGroup"), ("desc"), ([] : List (String × String))) :=
  (c9_parse_argv [("desc"), ("a")]).2.2.1 ("desc") [("a")] rfl (Or.inl rfl)

/-- C5: on a validation failure with attempts remaining, the repair prompt
sent to the backend equals the original user prompt followed by the literal
validation-error description and the instruction to correct and resend
JSON only, and the loop continues on the freshly returned candidate alone,
fully replacing the previous candidate. -/
theorem c5_repair_prompt (backend : Nat → String) (filename user : String) (schema : JSchema)
    (data d2 : Json) (i f : Nat) (e : String)
    (he : validate data schema = .error e)
    (hb : backendJson backend i = some d2) :
    validate_or_repair backend filename user schema data i (f + 1) =
      ((validate_or_repair backend filename user schema d2 (i + 1) f).1,
       (validate_or_repair backend filename user schema d2 (i + 1) f).2.1,
       Event.genRepair filename
         (user ++ "\n\nFEHLER: " ++ e ++ "\nBitte korrigiere das JSON und liefere nur korrektes JSON.") ::
         (validate_or_repair backend filename user schema d2 (i + 1) f).2.2) := by
  simp only [vor_step, he, hb, repair_user]

/-- Witness for C5 at a concrete invalid candidate and backend. -/
theorem c5_repair_prompt_witness :
    validate (Json.obj []) INTERACTION_ELEMENTS_SCHEMA =
      .error ("is not valid under the given schema") ∧
    backendJson badBackend 0 = some (Json.obj []) ∧
    validate_or_repair badBackend ("InteractionElements") ("u") INTERACTION_ELEMENTS_SCHEMA
        (Json.obj []) 0 (1 + 1) =
      ((validate_or_repair badBackend ("InteractionElements") ("u") INTERACTION_ELEMENTS_SCHEMA
          (Json.obj []) 1 1).1,
       (validate_or_repair badBackend ("InteractionElements") ("u") INTERACTION_ELEMENTS_SCHEMA
          (Json.obj []) 1 1).2.1,
       Event.genRepair ("InteractionElements")
         (("u") ++ "\n\nFEHLER: " ++ ("is not valid under the given schema") ++
           "\nBitte korrigiere das JSON und liefere nur korrektes JSON.") ::
         (validate_or_repair badBackend ("InteractionElements") ("u") INTERACTION_ELEMENTS_SCHEMA
           (Json.obj []) 1 1).2.2) :=
  ⟨rfl, rfl,
    c5_repair_prompt badBackend ("InteractionElements") ("u") INTERACTION_ELEMENTS_SCHEMA
      (Json.obj []) (Json.obj []) 0 1 ("is not valid under the given schema") rfl rfl⟩

/-- C10: empty or missing backend message content is replaced by the
literal empty-object text, so generate_json returns the empty mapping
instead of raising a parse error; that empty mapping fails validation
against each of the four schemas, and with attempts remaining the repair
loop reacts with a repair call rather than surfacing a parse error. -/
theorem c10_empty_content (content : Option String)
    (h : content = none ∨ content = some (""))
    (backend : Nat → String) (filename user : String) (i f : Nat) :
    generate_json_of_raw (chat_json_mode_text content) = some (Json.obj []) ∧
    (∀ sc ∈ [INTERACTION_ELEMENTS_SCHEMA, VISUALIZATION_ELEMENTS_SCHEMA, STATES_SCHEMA,
        TRANSITIONS_SCHEMA], ∃ m, validate (Json.obj []) sc = .error m) ∧
    (∀ sc ∈ [INTERACTION_ELEMENTS_SCHEMA, VISUALIZATION_ELEMENTS_SCHEMA, STATES_SCHEMA,
        TRANSITIONS_SCHEMA], ∃ u2 tr2,
      (validate_or_repair backend filename user sc (Json.obj []) i (f + 1)).2.2 =
        Event.genRepair filename u2 :: tr2) := by
  refine ⟨?_, ?_, ?_⟩
  · rcases h with h | h
    · subst h
      rfl
    · subst h
      rfl
  · intro sc hsc
    simp only [List.mem_cons, List.not_mem_nil, or_false] at hsc
    rcases hsc with h2 | h2 | h2 | h2 <;> subst h2 <;> exact ⟨_, rfl⟩
  · intro sc hsc
    have hv : validate (Json.obj []) sc = .error (errMsg (Json.obj []) sc) := by
      simp only [List.mem_cons, List.not_mem_nil, or_false] at hsc
      rcases hsc with h2 | h2 | h2 | h2 <;> subst h2 <;> rfl
    cases hb : backendJson backend i with
    | none =>
      simp only [vor_step, hv, hb]
      exact ⟨_, _, rfl⟩
    | some d2 =>
      simp only [vor_step, hv, hb]
      exact ⟨_, _, rfl⟩

/-- Witness for C10 at missing content and a concrete schema. -/
theorem c10_empty_content_witness :
    generate_json_of_raw (chat_json_mode_text none) = some (Json.obj []) ∧
    (∃ m, validate (Json.obj []) STATES_SCHEMA = .error m) ∧
    (∃ u2 tr2, (validate_or_repair badBackend ("n") ("u") STATES_SCHEMA (Json.obj []) 0 (0 + 1)).2.2 =
      Event.genRepair ("n") u2 :: tr2) := by
  have h := c10_empty_content none (Or.inl rfl) badBackend ("n") ("u") 0 0
  exact ⟨h.1, h.2.1 STATES_SCHEMA (by simp), h.2.2 STATES_SCHEMA (by simp)⟩

/-- C2: the backend is invoked at most 1 + max_repairs = 3 times per
artifact; the repair loop itself makes at most max_repairs backend calls;
a backend returning invalid candidates on the first max_repairs validation
attempts and a valid candidate on the last repair call makes the loop
succeed; a backend whose candidates are all invalid up to the budget makes
it raise the validation failure. -/
theorem c2_repair_bound :
    (∀ (backend : Nat → String) (spec_text docs_text f : String),
      countCalls f (generate_all backend spec_text docs_text).2 ≤ 1 + 2) ∧
    (∀ (backend : Nat → String) (filename user : String) (schema : JSchema)
        (fuel : Nat) (data : Json) (i : Nat),
      (validate_or_repair backend filename user schema data i fuel).2.2.length ≤ fuel) ∧
    (∀ (backend : Nat → String) (filename user : String) (schema : JSchema)
        (f : Nat) (c : Nat → Json) (data : Json) (i : Nat),
      (∀ k, backendJson backend (i + k) = some (c k)) →
      validateB data schema = false →
      (∀ k, k < f → validateB (c k) schema = false) →
      validateB (c f) schema = true →
      (validate_or_repair backend filename user schema data i (f + 1)).1 = .ok (c f) ∧
      (validate_or_repair backend filename user schema data i (f + 1)).2.2.length = f + 1) ∧
    (∀ (backend : Nat → String) (filename user : String) (schema : JSchema)
        (f : Nat) (c : Nat → Json) (data : Json) (i : Nat),
      (∀ k, backendJson backend (i + k) = some (c k)) →
      validateB data schema = false →
      (∀ k, k < f → validateB (c k) schema = false) →
      ∃ m, (validate_or_repair backend filename user schema data i f).1 =
        .error (.schemaError m)) :=
  ⟨fun backend s d f => genall_count backend s d f,
   fun backend fn u sc fuel data i => vor_events_length backend fn u sc fuel data i,
   fun backend fn u sc f c data i => vor_scenario_success backend fn u sc f c data i,
   fun backend fn u sc f c data i => vor_scenario_fail backend fn u sc f c data i⟩

/-- Witness for C2: concrete call-count bound, loop-length bound, a
success after one failed repair, and an exhausted budget. -/
theorem c2_repair_bound_witness :
    countCalls ("InteractionElements.json") (generate_all badBackend ("s") ("d")).2 ≤ 1 + 2 ∧
    (validate_or_repair badBackend ("n") ("u") INTERACTION_ELEMENTS_SCHEMA (Json.obj []) 0 2).2.2.length ≤ 2 ∧
    (validate_or_repair lateBackend ("n") ("u") INTERACTION_ELEMENTS_SCHEMA (Json.obj []) 0 (1 + 1)).1 =
      .ok (lateCandidates 1) ∧
    (∃ m, (validate_or_repair badBackend ("n") ("u") INTERACTION_ELEMENTS_SCHEMA (Json.obj []) 0 2).1 =
      .error (.schemaError m)) := by
  have hp : ∀ k, backendJson lateBackend (0 + k) = some (lateCandidates k) := by
    intro k
    match k with
    | 0 => rfl
    | Nat.succ k2 =>
      rw [Nat.zero_add]
      show backendJson lateBackend (k2 + 1) = some (lateCandidates (k2 + 1))
      unfold backendJson lateBackend lateCandidates
      rw [if_neg (Nat.succ_ne_zero k2), if_neg (Nat.succ_ne_zero k2)]
      rfl
  have hk : ∀ k, k < 1 → validateB (lateCandidates k) INTERACTION_ELEMENTS_SCHEMA = false := by
    intro k hklt
    have hk0 : k = 0 := by omega
    subst hk0
    rfl
  refine ⟨c2_repair_bound.1 badBackend ("s") ("d") ("InteractionElements.json"),
    c2_repair_bound.2.1 badBackend ("n") ("u") INTERACTION_ELEMENTS_SCHEMA 2 (Json.obj []) 0,
    (c2_repair_bound.2.2.1 lateBackend ("n") ("u") INTERACTION_ELEMENTS_SCHEMA 1 lateCandidates
      (Json.obj []) 0 hp rfl hk rfl).1,
    c2_repair_bound.2.2.2 badBackend ("n") ("u") INTERACTION_ELEMENTS_SCHEMA 2 badCandidates
      (Json.obj []) 0 (fun k => rfl) rfl (fun k hklt => rfl)⟩

/-- C1: in a successful generate_all run, every artifact recorded in the
result and every artifact written to a file satisfies its declared schema,
so validate never raises on any artifact of a successful run. -/
theorem c1_schema_conformance (backend : Nat → String) (spec_text docs_text : String)
    (l : List (String × Json)) (h : (generate_all backend spec_text docs_text).1 = .ok l) :
    (∀ p ∈ l, ∃ sc, (p.1, sc) ∈ FILE_ORDER ∧ validate p.2 sc = .ok ()) ∧
    (∀ fn dj, Event.write fn dj ∈ (generate_all backend spec_text docs_text).2 →
      ∃ sc, (fn, sc) ∈ FILE_ORDER ∧ validate dj sc = .ok ()) := by
  unfold generate_all at h ⊢
  cases hr : (runPipeline backend spec_text docs_text 0 FILE_ORDER).1 with
  | error e => simp [hr] at h
  | ok l2 =>
    simp only [hr] at h ⊢
    have hl : l2 = l := by injection h
    subst hl
    constructor
    · intro p hp
      obtain ⟨sc, hm, hv⟩ := run_ok_valid backend spec_text docs_text FILE_ORDER 0 l2 hr p hp
      exact ⟨sc, hm, (validate_ok_iff _ _).mpr hv⟩
    · intro fn dj hmem
      rw [List.mem_append] at hmem
      rcases hmem with hmem | hmem
      · obtain ⟨sc, hm, hv⟩ := run_write_valid backend spec_text docs_text FILE_ORDER 0 fn dj hmem
        exact ⟨sc, hm, (validate_ok_iff _ _).mpr hv⟩
      · simp at hmem

/-- Witness for C1 at a backend returning valid artifacts. -/
theorem c1_schema_conformance_witness :
    (generate_all okBackend ("s") ("d")).1 = .ok okResults ∧
    (∀ p ∈ okResults, ∃ sc, (p.1, sc) ∈ FILE_ORDER ∧ validate p.2 sc = .ok ()) := by
  have h : (generate_all okBackend ("s") ("d")).1 = .ok okResults := rfl
  exact ⟨h, (c1_schema_conformance okBackend ("s") ("d") okResults h).1⟩

/-- C3: when the repair budget is exhausted and validation still fails,
the validation failure propagates out of generate_all, the failing
artifact is neither written nor recorded, no later artifact is generated,
and the files of the earlier artifacts remain written in order. -/
theorem c3_exhausted_budget (backend : Nat → String) (spec_text docs_text m : String)
    (h : (generate_all backend spec_text docs_text).1 = .error (.schemaError m)) :
    ∃ done fx sx rest tr1 tr2,
      FILE_ORDER = done ++ (fx, sx) :: rest ∧
      (generate_all backend spec_text docs_text).2 = tr1 ++ tr2 ∧
      SegTrace spec_text docs_text done tr1 ∧
      FailSeg spec_text docs_text fx tr2 ∧
      writesOf (generate_all backend spec_text docs_text).2 = done.map Prod.fst ∧
      initsOf (generate_all backend spec_text docs_text).2 = done.map Prod.fst ++ [fx] := by
  unfold generate_all at h ⊢
  cases hr : (runPipeline backend spec_text docs_text 0 FILE_ORDER).1 with
  | ok l2 => simp [hr] at h
  | error e =>
    simp only [hr] at h ⊢
    obtain ⟨done, fx, sx, rest, tr1, tr2, hart, htr, hseg, hfail⟩ :=
      run_err_shape backend spec_text docs_text FILE_ORDER 0 e hr
    refine ⟨done, fx, sx, rest, tr1, tr2, hart, htr, hseg, hfail, ?_, ?_⟩
    · rw [htr, writesOf_append, segTrace_writes spec_text docs_text done tr1 hseg,
        failSeg_writes spec_text docs_text fx tr2 hfail]
      simp
    · rw [htr, initsOf_append, segTrace_inits spec_text docs_text done tr1 hseg,
        failSeg_inits spec_text docs_text fx tr2 hfail]

/-- Witness for C3 at a backend whose candidates never validate. -/
theorem c3_exhausted_budget_witness :
    (generate_all badBackend ("s") ("d")).1 =
      .error (.schemaError ("is not valid under the given schema")) ∧
    (∃ done fx sx rest tr1 tr2,
      FILE_ORDER = done ++ (fx, sx) :: rest ∧
      (generate_all badBackend ("s") ("d")).2 = tr1 ++ tr2 ∧
      SegTrace ("s") ("d") done tr1 ∧
      FailSeg ("s") ("d") fx tr2 ∧
      writesOf (generate_all badBackend ("s") ("d")).2 = done.map Prod.fst ∧
      initsOf (generate_all badBackend ("s") ("d")).2 = done.map Prod.fst ++ [fx]) := by
  have h : (generate_all badBackend ("s") ("d")).1 =
      .error (.schemaError ("is not valid under the given schema")) := rfl
  exact ⟨h, c3_exhausted_budget badBackend ("s") ("d") ("is not valid under the given schema") h⟩

/-- C4: a successful generate_all run generates, validates and persists
the four artifacts in exactly the fixed order InteractionElements,
VisualizationElements, States, Transitions, and each artifact's file write
precedes the next artifact's first generation call. -/
theorem c4_fixed_order (backend : Nat → String) (spec_text docs_text : String)
    (l : List (String × Json)) (h : (generate_all backend spec_text docs_text).1 = .ok l) :
    ∃ tr0, (generate_all backend spec_text docs_text).2 = tr0 ++ [Event.writeUsage] ∧
      SegTrace spec_text docs_text FILE_ORDER tr0 ∧
      writesOf tr0 = [("InteractionElements.json"), ("VisualizationElements.json"),
        ("States.json"), ("Transitions.json")] ∧
      initsOf tr0 = [("InteractionElements.json"), ("VisualizationElements.json"),
        ("States.json"), ("Transitions.json")] ∧
      l.map Prod.fst = [("InteractionElements.json"), ("VisualizationElements.json"),
        ("States.json"), ("Transitions.json")] := by
  unfold generate_all at h ⊢
  cases hr : (runPipeline backend spec_text docs_text 0 FILE_ORDER).1 with
  | error e => simp [hr] at h
  | ok l2 =>
    simp only [hr] at h ⊢
    have hl : l2 = l := by injection h
    subst hl
    have hseg := run_ok_seg backend spec_text docs_text FILE_ORDER 0 l2 hr
    refine ⟨(runPipeline backend spec_text docs_text 0 FILE_ORDER).2.2, rfl, hseg, ?_, ?_, ?_⟩
    · rw [segTrace_writes spec_text docs_text FILE_ORDER _ hseg]
      rfl
    · rw [segTrace_inits spec_text docs_text FILE_ORDER _ hseg]
      rfl
    · rw [run_ok_names backend spec_text docs_text FILE_ORDER 0 l2 hr]
      rfl

/-- Witness for C4 at a backend returning valid artifacts. -/
theorem c4_fixed_order_witness :
    (generate_all okBackend ("s") ("d")).1 = .ok okResults ∧
    (∃ tr0, (generate_all okBackend ("s") ("d")).2 = tr0 ++ [Event.writeUsage] ∧
      SegTrace ("s") ("d") FILE_ORDER tr0 ∧
      writesOf tr0 = [("InteractionElements.json"), ("VisualizationElements.json"),
        ("States.json"), ("Transitions.json")] ∧
      initsOf tr0 = [("InteractionElements.json"), ("VisualizationElements.json"),
        ("States.json"), ("Transitions.json")] ∧
      okResults.map Prod.fst = [("InteractionElements.json"), ("VisualizationElements.json"),
        ("States.json"), ("Transitions.json")]) := by
  have h : (generate_all okBackend ("s") ("d")).1 = .ok okResults := rfl
  exact ⟨h, c4_fixed_order okBackend ("s") ("d") okResults h⟩

/-- C7: the first generation prompt recorded for any artifact is exactly
the prompt built from the specification text, the docs text and the
artifact filename alone; in particular two runs that differ only in the
backend produce the same States prompt, which therefore cannot contain any
candidate generated for InteractionElements. -/
theorem c7_no_cross_artifact_leakage :
    (∀ (backend : Nat → String) (spec_text docs_text fn u : String),
      Event.genInit fn u ∈ (generate_all backend spec_text docs_text).2 →
      u = build_user_prompt spec_text docs_text fn) ∧
    (∀ (b b2 : Nat → String) (spec_text docs_text u u2 : String),
      Event.genInit ("States.json") u ∈ (generate_all b spec_text docs_text).2 →
      Event.genInit ("States.json") u2 ∈ (generate_all b2 spec_text docs_text).2 →
      u = u2) := by
  have main : ∀ (backend : Nat → String) (spec_text docs_text fn u : String),
      Event.genInit fn u ∈ (generate_all backend spec_text docs_text).2 →
      u = build_user_prompt spec_text docs_text fn := by
    intro backend spec_text docs_text fn u hmem
    unfold generate_all at hmem
    cases hr : (runPipeline backend spec_text docs_text 0 FILE_ORDER).1 with
    | error e =>
      simp only [hr] at hmem
      exact run_genInit_prompt backend spec_text docs_text FILE_ORDER 0 fn u hmem
    | ok l2 =>
      simp only [hr] at hmem
      rw [List.mem_append] at hmem
      rcases hmem with hmem | hmem
      · exact run_genInit_prompt backend spec_text docs_text FILE_ORDER 0 fn u hmem
      · simp at hmem
  refine ⟨main, ?_⟩
  intro b b2 spec_text docs_text u u2 h1 h2
  rw [main b spec_text docs_text ("States.json") u h1,
    main b2 spec_text docs_text ("States.json") u2 h2]

/-- Witness for C7 at two concrete runs of the same backend. -/
theorem c7_no_cross_artifact_leakage_witness :
    Event.genInit ("States.json") (build_user_prompt ("s") ("d") ("States.json")) ∈
      (generate_all okBackend ("s") ("d")).2 ∧
    build_user_prompt ("s") ("d") ("States.json") = build_user_prompt ("s") ("d") ("States.json") := by
  have htr : (generate_all okBackend ("s") ("d")).2 =
      [Event.genInit ("InteractionElements.json") (build_user_prompt ("s") ("d") ("InteractionElements.json")),
       Event.write ("InteractionElements.json") (Json.obj [("Elements", Json.arr [])]),
       Event.genInit ("VisualizationElements.json") (build_user_prompt ("s") ("d") ("VisualizationElements.json")),
       Event.write ("VisualizationElements.json") (Json.obj [("Elements", Json.arr [])]),
       Event.genInit ("States.json") (build_user_prompt ("s") ("d") ("States.json")),
       Event.write ("States.json") (Json.obj [("States", Json.arr [])]),
       Event.genInit ("Transitions.json") (build_user_prompt ("s") ("d") ("Transitions.json")),
       Event.write ("Transitions.json") (Json.obj [("Transitions", Json.arr [])]),
       Event.writeUsage] := rfl
  have hmem : Event.genInit ("States.json") (build_user_prompt ("s") ("d") ("States.json")) ∈
      (generate_all okBackend ("s") ("d")).2 := by
    rw [htr]
    exact List.Mem.tail _ (List.Mem.tail _ (List.Mem.tail _ (List.Mem.tail _ (List.Mem.head _))))
  exact ⟨hmem,
    c7_no_cross_artifact_leakage.2 okBackend okBackend ("s") ("d") _ _ hmem hmem⟩
